import Mathlib

/-!
Shallow embedding of `sepacbi/entity.py`: the `Address` and `IdHolder`
entities, their validation (`perform_checks`) and emission (`emit_tag`)
into an ordered markup tree, together with the `emit_id_tag` helper.

Python optional attributes (set or absent, tested with `hasattr`) are
modelled as `Option` fields; the markup tree built with `lxml.etree` is
modelled as an inductive tree of (tag, text, ordered children); Python
exceptions are modelled with `Except` over an explicit error type.
-/

namespace Sepacbi

/-- A Python value that may be passed as the `address` argument: either a
sequence of strings (`list`/`tuple`) or a plain string, which fails the
`isinstance(self.lines, (list, tuple))` test in `Address.perform_checks`
but is still iterable (character by character) during emission. -/
inductive PyVal where
  | str (s : String)
  | list (xs : List String)
deriving DecidableEq, Repr

/-- The elements obtained by iterating a Python value with `for line in v`:
the elements of a sequence, or the one-character strings of a string. -/
def PyVal.elems : PyVal → List String
  | .str s => s.toList.map (fun c => String.mk [c])
  | .list xs => xs

/-- A markup tree node as built by `lxml.etree`: a tag, optional text
content, and an ordered list of children. -/
inductive Tree where
  | node (tag : String) (text : Option String) (children : List Tree)

/-- The constraint kinds of the generic "constraint violated" failure the
spec prescribes for the attribute-carrier length checks. -/
inductive Constraint where
  | maxLength (n : Nat)
  | exactLength (n : Nat)
  | mutualExclusion (other : String)
deriving DecidableEq, Repr

/-- The failures that validation and emission can raise:
`missingCUC` models `MissingCUCError`; `addressFormat msg` models
`AddressFormatError(msg)`; `constraintViolated` models the generic
constraint failure of the attribute-carrier length checks; and
`assertionFailed` models a bare Python `assert` failing (an
`AssertionError`, which carries no field or constraint information). -/
inductive Err where
  | missingCUC
  | addressFormat (msg : String)
  | constraintViolated (field : String) (c : Constraint)
  | assertionFailed
deriving DecidableEq, Repr

/-- Modelled from the spec: `AttributeCarrier.max_length` lives in
`util.py`, which is not part of the sources; per the spec, length checks
"should raise a single generic "constraint violated" kind carrying the
offending field name and the constraint (max length, exact length, or
mutual exclusion)". -/
def AttributeCarrier.max_length (field : String) (value : String) (n : Nat) :
    Except Err Unit :=
  if n < value.length then
    Except.error (Err.constraintViolated field (Constraint.maxLength n))
  else
    Except.ok ()

/-- Modelled from the spec: `AttributeCarrier.length` (exact-length check)
lives in `util.py`, which is not part of the sources; it raises the same
generic "constraint violated" kind with an exact-length constraint. -/
def AttributeCarrier.length (field : String) (value : String) (n : Nat) :
    Except Err Unit :=
  if value.length ≠ n then
    Except.error (Err.constraintViolated field (Constraint.exactLength n))
  else
    Except.ok ()

/-- Source: `Address.__init__(address, country, town)`: positional construction,
no checks (`self.lines = address; self.country = country;
self.town = town`). -/
structure Address where
  lines : Option PyVal
  country : Option String
  town : Option String
deriving DecidableEq, Repr

/-- Checking one address line: `if len(line) < 1 or len(line) > 70`. -/
def checkLine (line : String) : Except Err Unit :=
  if line.length < 1 ∨ 70 < line.length then
    Except.error (Err.addressFormat
      "Line must have length between 1 and 70 characters")
  else
    Except.ok ()

/-- The `for line in self.lines` loop of `Address.perform_checks`. -/
def checkLines : List String → Except Err Unit
  | [] => Except.ok ()
  | l :: ls => do
    checkLine l
    checkLines ls

/-- Source: `Address.perform_checks`: no check when `lines` is absent; the
`isinstance(self.lines, (list, tuple))` test; the line-count test; the
per-line length test. -/
def Address.perform_checks (a : Address) : Except Err Unit :=
  match a.lines with
  | none => Except.ok ()
  | some (PyVal.str _) => Except.error (Err.addressFormat "Address format error")
  | some (PyVal.list xs) =>
    if xs.length < 1 ∨ 2 < xs.length then
      Except.error (Err.addressFormat "Must have either 1 or 2 address lines")
    else
      checkLines xs

/-- Source: `Address.emit_tag`: root `PstlAdr`; `TwnNm` when `town` is set;
`Ctry` when `country` is set; one `AdrLine` per iterated element of
`lines` when `lines` is set. -/
def Address.emit_tag (a : Address) : Tree :=
  Tree.node "PstlAdr" none
    ((match a.town with
      | some t => [Tree.node "TwnNm" (some t) []]
      | none => []) ++
     (match a.country with
      | some c => [Tree.node "Ctry" (some c) []]
      | none => []) ++
     (match a.lines with
      | some v => v.elems.map (fun l => Tree.node "AdrLine" (some l) [])
      | none => []))

/-- Modelled from the spec: the attribute-carrier `__tag__` hook (in the
missing `util.py`) through which `IdHolder.emit_tag` renders `self.pstl`;
per the spec, Address "Emission never fails; it reflects whatever fields
are present, validated or not — validation and emission are decoupled",
so the hook renders the address by its emission function. -/
def Address.tag (a : Address) : Tree := a.emit_tag

/-- Source: `emit_id_tag(id_code, id_type)`: an `Othr` node with an `Id` child
holding the code and an `Issr` child holding the issuer when supplied. -/
def emit_id_tag (id_code : String) (id_type : Option String) : Tree :=
  Tree.node "Othr" none
    ([Tree.node "Id" (some id_code) []] ++
     (match id_type with
      | some t => [Tree.node "Issr" (some t) []]
      | none => []))

/-- Source: `IdHolder`: keyword construction restricted to the allow-list
`('name', 'cf', 'code', 'private', 'cuc', 'address', 'country',
'pstl_town', 'pstl_country', 'sia_code')`; `__init__` defaults
`private = False` and `pstl = None`.  Optional attributes (absent unless
supplied) are `Option` fields. -/
structure IdHolder where
  name : Option String := none
  cf : Option String := none
  code : Option String := none
  «private» : Bool := false
  cuc : Option String := none
  address : Option PyVal := none
  country : Option String := none
  pstl_town : Option String := none
  pstl_country : Option String := none
  sia_code : Option String := none
  pstl : Option Address := none
deriving DecidableEq, Repr

/-- Source: `if hasattr(self, 'name'): self.max_length('name', 70)`. -/
def IdHolder.check_name (h : IdHolder) : Except Err Unit :=
  match h.name with
  | some v => AttributeCarrier.max_length "name" v 70
  | none => Except.ok ()

/-- Source: `if hasattr(self, 'cf'): assert not hasattr(self, 'code');
self.max_length('cf', 16)` — the bare `assert` fails first when both
`cf` and `code` are set. -/
def IdHolder.check_cf (h : IdHolder) : Except Err Unit :=
  match h.cf with
  | some v =>
    if h.code.isSome then Except.error Err.assertionFailed
    else AttributeCarrier.max_length "cf" v 16
  | none => Except.ok ()

/-- Source: `if hasattr(self, 'cuc'): self.max_length('cuc', 35)`. -/
def IdHolder.check_cuc (h : IdHolder) : Except Err Unit :=
  match h.cuc with
  | some v => AttributeCarrier.max_length "cuc" v 35
  | none => Except.ok ()

/-- Source: `if hasattr(self, 'pstl_country'): self.length('pstl_country', 2)`. -/
def IdHolder.check_pstl_country (h : IdHolder) : Except Err Unit :=
  match h.pstl_country with
  | some v => AttributeCarrier.length "pstl_country" v 2
  | none => Except.ok ()

/-- Source: `if hasattr(self, 'pstl_town'): self.max_length('pstl_town', 35)`. -/
def IdHolder.check_pstl_town (h : IdHolder) : Except Err Unit :=
  match h.pstl_town with
  | some v => AttributeCarrier.max_length "pstl_town" v 35
  | none => Except.ok ()

/-- Source: `if hasattr(self, 'country'): self.length('country', 2)`. -/
def IdHolder.check_country (h : IdHolder) : Except Err Unit :=
  match h.country with
  | some v => AttributeCarrier.length "country" v 2
  | none => Except.ok ()

/-- The six length/mutual-exclusion checks of `IdHolder.perform_checks`,
in source order. -/
def IdHolder.run_checks (h : IdHolder) : Except Err Unit := do
  h.check_name
  h.check_cf
  h.check_cuc
  h.check_pstl_country
  h.check_pstl_town
  h.check_country

/-- The tail of `IdHolder.perform_checks`: the (literally translated,
self-duplicated) condition `hasattr(self, 'pstl_country') or
hasattr(self, 'pstl_country')` guarding
`self.pstl = Address(address, pstl_country, pstl_town)`. -/
def IdHolder.update_pstl (h : IdHolder) : IdHolder :=
  if h.pstl_country.isSome || h.pstl_country.isSome then
    { h with pstl := some (Address.mk h.address h.pstl_country h.pstl_town) }
  else
    h

/-- Source: `IdHolder.perform_checks`: run the checks, then perform the `pstl`
assignment; the result is the (possibly updated) instance.  The final
`assert isinstance(self.pstl, Address)` is vacuous in the embedding. -/
def IdHolder.perform_checks (h : IdHolder) : Except Err IdHolder :=
  match h.run_checks with
  | Except.error e => Except.error e
  | Except.ok _ => Except.ok h.update_pstl

/-- Source: `IdHolder.emit_tag(tag, as_initiator, hide)`, translated statement by
statement; raising `MissingCUCError` becomes an `Except.error`. -/
def IdHolder.emit_tag (h : IdHolder) (tag : String)
    (as_initiator : Bool) (hide : Bool) : Except Err Tree := do
  let tag := if as_initiator then "InitgPty" else tag
  let nmPart : List Tree :=
    match h.name with
    | some n => [Tree.node "Nm" (some n) []]
    | none => []
  let adrPart : List Tree :=
    match h.pstl with
    | some p => if !as_initiator then [p.tag] else []
    | none => []
  let id_container := if h.«private» then "PrvtId" else "OrgId"
  let cucPart : List Tree ←
    if as_initiator || hide then
      match h.cuc with
      | none => Except.error Err.missingCUC
      | some c => pure [emit_id_tag c (some "CBI")]
    else
      pure []
  let cfPart : List Tree :=
    if !hide then
      match h.cf with
      | some c => [emit_id_tag c (some "ADE")]
      | none => []
    else
      []
  let codePart : List Tree :=
    match h.code with
    | some c => [emit_id_tag c none]
    | none => []
  let orgid := Tree.node id_container none (cucPart ++ cfPart ++ codePart)
  let idPart := [Tree.node "Id" none [orgid]]
  let ctryPart : List Tree :=
    if !as_initiator then
      match h.country with
      | some c => [Tree.node "CtryOfRes" (some c) []]
      | none => []
    else
      []
  pure (Tree.node tag none (nmPart ++ adrPart ++ idPart ++ ctryPart))


/-! ## Spec-side descriptions for refinement claims -/

/-- Spec-side description of the `Address` emission output, written from
the spec's words: root `PstlAdr`; optional ordered children, in this exact
order, town (`TwnNm`, only if set), country (`Ctry`, only if set), then
one `AdrLine` child per element of `lines` in original order (only if
`lines` set). -/
def specAddressTree (a : Address) : Tree :=
  Tree.node "PstlAdr" none
    ((a.town.map (fun t => Tree.node "TwnNm" (some t) [])).toList ++
     (a.country.map (fun c => Tree.node "Ctry" (some c) [])).toList ++
     (a.lines.map (fun v => v.elems.map
        (fun l => Tree.node "AdrLine" (some l) []))).getD [])

/-- Spec-side description of the `IdHolder` emission output, written from
the claim's words: root `InitgPty` when `as_initiator` (overriding the
caller-supplied tag), else the caller's tag; children in the order `Nm`
(only if `name` set), the address fragment (only if `pstl` set and not
initiator), `Id`, `CtryOfRes` (only if `country` set and not initiator);
`Id` holds exactly one of `PrvtId` (when `private`) or `OrgId`, which
holds, in order: the CUC as an `Othr` fragment with issuer "CBI" when
`as_initiator` or `hide` holds, the tax code `cf` as an `Othr` fragment
with issuer "ADE" when `hide` is false and `cf` is set, and the generic
`code` as an `Othr` fragment with no issuer when `code` is set. -/
def specHolderTree (h : IdHolder) (tag : String)
    (as_initiator hide : Bool) : Tree :=
  Tree.node (if as_initiator then "InitgPty" else tag) none
    ((h.name.map (fun n => Tree.node "Nm" (some n) [])).toList ++
     (if as_initiator then []
      else (h.pstl.map Address.emit_tag).toList) ++
     [Tree.node "Id" none
       [Tree.node (if h.«private» then "PrvtId" else "OrgId") none
         ((if as_initiator || hide then
             (h.cuc.map (fun c => emit_id_tag c (some "CBI"))).toList
           else []) ++
          (if hide then []
           else (h.cf.map (fun c => emit_id_tag c (some "ADE"))).toList) ++
          (h.code.map (fun c => emit_id_tag c none)).toList)]] ++
     (if as_initiator then []
      else (h.country.map (fun c => Tree.node "CtryOfRes" (some c) [])).toList))

/-! ## Searching a tree for the CUC ("CBI"-issued) fragment -/

mutual

/-- Whether a tree contains an `Issr` node with text "CBI" — the marker
of the CUC fragment, which `emit_id_tag` attaches only at the CUC site. -/
def Tree.hasCBI : Tree → Bool
  | .node tg tx cs => decide (tg = "Issr" ∧ tx = some "CBI") || Tree.hasCBIList cs

/-- Pointwise `Tree.hasCBI` over a forest. -/
def Tree.hasCBIList : List Tree → Bool
  | [] => false
  | t :: ts => Tree.hasCBI t || Tree.hasCBIList ts

end

/-- The length constraints the spec assigns to the optional `IdHolder`
fields, each required only of a present field. -/
def IdHolder.lengthsOk (h : IdHolder) : Prop :=
  (∀ v, h.name = some v → v.length ≤ 70) ∧
  (∀ v, h.cf = some v → v.length ≤ 16) ∧
  (∀ v, h.cuc = some v → v.length ≤ 35) ∧
  (∀ v, h.pstl_country = some v → v.length = 2) ∧
  (∀ v, h.pstl_town = some v → v.length ≤ 35) ∧
  (∀ v, h.country = some v → v.length = 2)

/-- Violation of some length constraint by a present `IdHolder` field. -/
def IdHolder.lengthViolation (h : IdHolder) : Prop :=
  (∃ v, h.name = some v ∧ 70 < v.length) ∨
  (∃ v, h.cf = some v ∧ 16 < v.length) ∨
  (∃ v, h.cuc = some v ∧ 35 < v.length) ∨
  (∃ v, h.pstl_country = some v ∧ v.length ≠ 2) ∨
  (∃ v, h.pstl_town = some v ∧ 35 < v.length) ∨
  (∃ v, h.country = some v ∧ v.length ≠ 2)

/-- Erasure of the `sia_code` field, used to state that the field is
inert: two holders agreeing after erasure agree on everything that
validation and emission may consult. -/
def IdHolder.stripSia (h : IdHolder) : IdHolder := { h with sia_code := none }

/-- State-passing form of `IdHolder.emit_tag`, reading the instance as
mutable state before each use, exactly where the source method reads
`self`; the source method contains no assignment to `self`, and the
theorems show the final state always equals the initial one. -/
def IdHolder.emit_tagS (tag : String) (as_initiator hide : Bool) :
    StateM IdHolder (Except Err Tree) := do
  let tag := if as_initiator then "InitgPty" else tag
  let self ← get
  let nmPart :=
    match self.name with
    | some n => [Tree.node "Nm" (some n) []]
    | none => []
  let self ← get
  let adrPart :=
    match self.pstl with
    | some p => if !as_initiator then [p.tag] else []
    | none => []
  let self ← get
  let id_container := if self.«private» then "PrvtId" else "OrgId"
  let self ← get
  match (if as_initiator || hide then
          match self.cuc with
          | none => Except.error Err.missingCUC
          | some c => Except.ok [emit_id_tag c (some "CBI")]
         else Except.ok ([] : List Tree)) with
  | Except.error e => pure (Except.error e)
  | Except.ok cucPart => do
    let self ← get
    let cfPart :=
      if !hide then
        match self.cf with
        | some c => [emit_id_tag c (some "ADE")]
        | none => []
      else []
    let self ← get
    let codePart :=
      match self.code with
      | some c => [emit_id_tag c none]
      | none => []
    let self ← get
    let ctryPart :=
      if !as_initiator then
        match self.country with
        | some c => [Tree.node "CtryOfRes" (some c) []]
        | none => []
      else []
    pure (Except.ok (Tree.node tag none
      (nmPart ++ adrPart ++
       [Tree.node "Id" none
         [Tree.node id_container none (cucPart ++ cfPart ++ codePart)]] ++
       ctryPart)))

/-- A 71-character line, violating the 1–70 address-line constraint. -/
def longLine : String := String.mk (List.replicate 71 'x')

/-! ## Helper lemmas -/

theorem ok_bind {α β : Type} (a : α) (f : α → Except Err β) :
    (Except.ok a >>= f) = f a := rfl

theorem error_bind {α β : Type} (e : Err) (f : α → Except Err β) :
    ((Except.error e : Except Err α) >>= f) = Except.error e := rfl

theorem checkLines_ok (xs : List String)
    (hx : ∀ l ∈ xs, 1 ≤ l.length ∧ l.length ≤ 70) :
    checkLines xs = Except.ok () := by
  induction xs with
  | nil => rfl
  | cons l ls ih =>
    obtain ⟨h1, h2⟩ := hx l (List.mem_cons_self l ls)
    have hl : checkLine l = Except.ok () := by
      unfold checkLine
      rw [if_neg]
      omega
    simp only [checkLines, hl, ok_bind]
    exact ih fun m hm => hx m (List.mem_cons_of_mem l hm)

theorem checkLines_error (xs : List String)
    (hx : ∃ l ∈ xs, l.length = 0 ∨ 70 < l.length) :
    checkLines xs = Except.error (Err.addressFormat
      "Line must have length between 1 and 70 characters") := by
  induction xs with
  | nil => simp at hx
  | cons l ls ih =>
    by_cases hbad : l.length = 0 ∨ 70 < l.length
    · have hl : checkLine l = Except.error (Err.addressFormat
          "Line must have length between 1 and 70 characters") := by
        unfold checkLine
        rw [if_pos]
        omega
      simp only [checkLines, hl, error_bind]
    · have hl : checkLine l = Except.ok () := by
        unfold checkLine
        rw [if_neg]
        omega
      simp only [checkLines, hl, ok_bind]
      apply ih
      rcases hx with ⟨m, hm, hmbad⟩
      rcases List.mem_cons.mp hm with heq | hmem
      · subst heq; exact absurd hmbad hbad
      · exact ⟨m, hmem, hmbad⟩

/-! ## Claims about `Address` -/

/-- **C6.** `Address.perform_checks` succeeds when `lines` is absent
(whatever `town` and `country` hold) or is a sequence of 1 or 2 lines of
length 1–70 each; it fails with `AddressFormatError` exactly when `lines`
is set and is not a sequence, or its length is 0 or more than 2, or some
line has length outside [1,70], each sub-case with its own message. -/
theorem C6_address_perform_checks (a : Address) :
    (a.lines = none → a.perform_checks = Except.ok ()) ∧
    (∀ s, a.lines = some (PyVal.str s) →
      a.perform_checks = Except.error (Err.addressFormat
        "Address format error")) ∧
    (∀ xs, a.lines = some (PyVal.list xs) →
      xs.length = 0 ∨ 2 < xs.length →
      a.perform_checks = Except.error (Err.addressFormat
        "Must have either 1 or 2 address lines")) ∧
    (∀ xs, a.lines = some (PyVal.list xs) →
      xs.length = 1 ∨ xs.length = 2 →
      (∀ l ∈ xs, 1 ≤ l.length ∧ l.length ≤ 70) →
      a.perform_checks = Except.ok ()) ∧
    (∀ xs, a.lines = some (PyVal.list xs) →
      xs.length = 1 ∨ xs.length = 2 →
      (∃ l ∈ xs, l.length = 0 ∨ 70 < l.length) →
      a.perform_checks = Except.error (Err.addressFormat
        "Line must have length between 1 and 70 characters")) := by
  refine ⟨fun hn => ?_, fun s hs => ?_, fun xs hxs hlen => ?_,
    fun xs hxs hlen hok => ?_, fun xs hxs hlen hbad => ?_⟩
  · simp [Address.perform_checks, hn]
  · simp [Address.perform_checks, hs]
  · simp only [Address.perform_checks, hxs]
    rw [if_pos]
    omega
  · simp only [Address.perform_checks, hxs]
    rw [if_neg]
    · exact checkLines_ok xs hok
    · omega
  · simp only [Address.perform_checks, hxs]
    rw [if_neg]
    · exact checkLines_error xs hbad
    · omega

/-- Witness for C6: a one-line address of valid length validates. -/
theorem C6_address_perform_checks_witness :
    Address.perform_checks ⟨some (PyVal.list ["Via Roma 1"]), none, none⟩ =
      Except.ok () :=
  (C6_address_perform_checks _).2.2.2.1 ["Via Roma 1"] rfl (Or.inl rfl)
    (by decide)

/-- **C7.** `Address.emit_tag` never fails (it is a total function of the
fields, validated or not) and produces exactly the spec-described tree:
root `PstlAdr` with, in order, an optional `TwnNm`, an optional `Ctry`,
and one `AdrLine` per element of `lines` in original order. -/
theorem C7_address_emit (a : Address) : a.emit_tag = specAddressTree a := by
  obtain ⟨lines, country, town⟩ := a
  cases lines <;> cases country <;> cases town <;> rfl

/-! ## Claims about `IdHolder` emission -/

/-- **C1.** Whenever `IdHolder.emit_tag` succeeds, the tree it produces is
exactly the spec-described tree: root `InitgPty` under `as_initiator`
(overriding the caller tag) else the caller tag; children in the order
`Nm` (iff `name`), address fragment (iff `pstl` and not initiator), `Id`,
`CtryOfRes` (iff `country` and not initiator); `Id` holding exactly one of
`PrvtId`/`OrgId` by `private`, which holds in order the "CBI" CUC fragment
(iff `as_initiator ∨ hide`), the "ADE" `cf` fragment (iff `¬hide` and
`cf`), and the issuerless `code` fragment (iff `code`). -/
theorem C1_emit_shape (h : IdHolder) (tag : String)
    (as_initiator hide : Bool) (t : Tree)
    (hok : h.emit_tag tag as_initiator hide = Except.ok t) :
    t = specHolderTree h tag as_initiator hide := by
  obtain ⟨name, cf, code, priv, cuc, addr, country, ptown, pctry, sia, pstl⟩ := h
  cases as_initiator <;> cases hide <;> cases cuc <;> cases name <;>
    cases cf <;> cases code <;> cases country <;> cases pstl <;>
    first
      | exact (Except.noConfusion hok)
      | (injection hok with hok; subst hok; rfl)

/-- Witness for C1: the shape theorem applied to the default holder with
tag `Cdtr` and both flags false, whose emission is computed by `rfl`. -/
theorem C1_emit_shape_witness :
    Tree.node "Cdtr" none [Tree.node "Id" none [Tree.node "OrgId" none []]] =
      specHolderTree {} "Cdtr" false false :=
  C1_emit_shape {} "Cdtr" false false _ rfl


theorem hasCBIList_append (a b : List Tree) :
    Tree.hasCBIList (a ++ b) = (Tree.hasCBIList a || Tree.hasCBIList b) := by
  induction a with
  | nil => simp [Tree.hasCBIList]
  | cons t ts ih => simp [Tree.hasCBIList, ih, Bool.or_assoc]

theorem hasCBI_node_of_ne_issr (tg : String) (tx : Option String)
    (cs : List Tree) (hne : tg ≠ "Issr") :
    Tree.hasCBI (Tree.node tg tx cs) = Tree.hasCBIList cs := by
  rw [Tree.hasCBI]
  rw [decide_eq_false (fun hand => hne hand.1)]
  exact Bool.false_or _

theorem hasCBI_node_of_ne_cbi (tg : String) (tx : Option String)
    (cs : List Tree) (hne : tx ≠ some "CBI") :
    Tree.hasCBI (Tree.node tg tx cs) = Tree.hasCBIList cs := by
  rw [Tree.hasCBI]
  rw [decide_eq_false (fun hand => hne hand.2)]
  exact Bool.false_or _

theorem hasCBI_adrlines (ls : List String) :
    Tree.hasCBIList (ls.map (fun l => Tree.node "AdrLine" (some l) [])) =
      false := by
  induction ls with
  | nil => rfl
  | cons l ls ih =>
    rw [List.map_cons, Tree.hasCBIList, ih,
      hasCBI_node_of_ne_issr _ _ _ (by decide)]
    rfl

theorem hasCBI_address (a : Address) : a.emit_tag.hasCBI = false := by
  obtain ⟨lines, country, town⟩ := a
  rw [Address.emit_tag]
  rw [hasCBI_node_of_ne_issr _ _ _ (by decide)]
  rw [hasCBIList_append, hasCBIList_append]
  cases lines <;> cases country <;> cases town <;>
    simp [Tree.hasCBIList, hasCBI_adrlines,
      hasCBI_node_of_ne_issr _ _ _ (by decide : ("TwnNm" : String) ≠ "Issr"),
      hasCBI_node_of_ne_issr _ _ _ (by decide : ("Ctry" : String) ≠ "Issr")]

theorem hasCBI_id_ade (c : String) :
    (emit_id_tag c (some "ADE")).hasCBI = false := by
  rw [emit_id_tag, hasCBI_node_of_ne_issr _ _ _ (by decide)]
  rw [show ([Tree.node "Id" (some c) []] ++ [Tree.node "Issr" (some "ADE") []])
      = [Tree.node "Id" (some c) [], Tree.node "Issr" (some "ADE") []] from rfl]
  rw [Tree.hasCBIList, Tree.hasCBIList, Tree.hasCBIList,
    hasCBI_node_of_ne_issr _ _ _ (by decide : ("Id" : String) ≠ "Issr"),
    hasCBI_node_of_ne_cbi _ _ _ (by decide : some ("ADE" : String) ≠ some "CBI")]
  rfl

theorem hasCBI_id_plain (c : String) :
    (emit_id_tag c none).hasCBI = false := by
  rw [emit_id_tag, hasCBI_node_of_ne_issr _ _ _ (by decide)]
  rw [show ([Tree.node "Id" (some c) []] ++
      (match (none : Option String) with
       | some t => [Tree.node "Issr" (some t) []]
       | none => [])) = [Tree.node "Id" (some c) []] from rfl]
  rw [Tree.hasCBIList, hasCBI_node_of_ne_issr _ _ _ (by decide : ("Id" : String) ≠ "Issr")]
  rfl

/-! ## Error shapes of the validation checks -/

theorem bind_error_cases {α β : Type} (x : Except Err α)
    (f : α → Except Err β) (e : Err) (hx : (x >>= f) = Except.error e) :
    x = Except.error e ∨ ∃ a, x = Except.ok a ∧ f a = Except.error e := by
  cases x with
  | error e2 =>
    rw [error_bind] at hx
    exact Or.inl (congrArg Except.error (Except.error.inj hx))
  | ok a =>
    right
    refine ⟨a, rfl, ?_⟩
    rw [ok_bind] at hx
    exact hx

theorem max_length_error (f v : String) (n : Nat) (e : Err)
    (hx : AttributeCarrier.max_length f v n = Except.error e) :
    e = Err.constraintViolated f (Constraint.maxLength n) := by
  rw [AttributeCarrier.max_length] at hx
  split at hx
  · exact (Except.error.inj hx).symm
  · exact Except.noConfusion hx

theorem length_error (f v : String) (n : Nat) (e : Err)
    (hx : AttributeCarrier.length f v n = Except.error e) :
    e = Err.constraintViolated f (Constraint.exactLength n) := by
  rw [AttributeCarrier.length] at hx
  split at hx
  · exact (Except.error.inj hx).symm
  · exact Except.noConfusion hx

/-- Every failure of the six `IdHolder` checks is either the bare
assertion failure (from `assert not hasattr(self, 'code')`) or a generic
constraint violation from the length checks — in particular never
`MissingCUCError` and never `AddressFormatError`. -/
theorem run_checks_error_shape (h : IdHolder) (e : Err)
    (he : h.run_checks = Except.error e) :
    e = Err.assertionFailed ∨ ∃ f c, e = Err.constraintViolated f c := by
  rw [IdHolder.run_checks] at he
  rcases bind_error_cases _ _ _ he with h1 | ⟨_, _, he⟩
  · rw [IdHolder.check_name] at h1
    cases hn : h.name with
    | none => rw [hn] at h1; exact Except.noConfusion h1
    | some v => rw [hn] at h1; exact Or.inr ⟨_, _, max_length_error _ _ _ _ h1⟩
  rcases bind_error_cases _ _ _ he with h1 | ⟨_, _, he⟩
  · rw [IdHolder.check_cf] at h1
    cases hn : h.cf with
    | none => rw [hn] at h1; exact Except.noConfusion h1
    | some v =>
      rw [hn] at h1
      have h2 : (if h.code.isSome = true then Except.error Err.assertionFailed
          else AttributeCarrier.max_length "cf" v 16) = Except.error e := h1
      by_cases hc : h.code.isSome
      · rw [if_pos hc] at h2
        exact Or.inl (Except.error.inj h2).symm
      · rw [if_neg hc] at h2
        exact Or.inr ⟨_, _, max_length_error _ _ _ _ h2⟩
  rcases bind_error_cases _ _ _ he with h1 | ⟨_, _, he⟩
  · rw [IdHolder.check_cuc] at h1
    cases hn : h.cuc with
    | none => rw [hn] at h1; exact Except.noConfusion h1
    | some v => rw [hn] at h1; exact Or.inr ⟨_, _, max_length_error _ _ _ _ h1⟩
  rcases bind_error_cases _ _ _ he with h1 | ⟨_, _, he⟩
  · rw [IdHolder.check_pstl_country] at h1
    cases hn : h.pstl_country with
    | none => rw [hn] at h1; exact Except.noConfusion h1
    | some v => rw [hn] at h1; exact Or.inr ⟨_, _, length_error _ _ _ _ h1⟩
  rcases bind_error_cases _ _ _ he with h1 | ⟨_, _, he⟩
  · rw [IdHolder.check_pstl_town] at h1
    cases hn : h.pstl_town with
    | none => rw [hn] at h1; exact Except.noConfusion h1
    | some v => rw [hn] at h1; exact Or.inr ⟨_, _, max_length_error _ _ _ _ h1⟩
  rw [IdHolder.check_country] at he
  cases hn : h.country with
  | none => rw [hn] at he; exact Except.noConfusion he
  | some v => rw [hn] at he; exact Or.inr ⟨_, _, length_error _ _ _ _ he⟩

/-- **C2.** For every `IdHolder` without `cuc` and any caller tag:
emission as initiator fails with `MissingCUCError` (for either `hide`),
emission with `hide` fails with `MissingCUCError` (for either role), and
emission with both flags false succeeds with a tree containing no CUC
fragment (no `Issr` node with text "CBI"); moreover `MissingCUCError` is
never raised by validation (`perform_checks`) of any `IdHolder`. -/
theorem C2_missing_cuc (h : IdHolder) (tag : String) (ai hide : Bool)
    (hnc : h.cuc = none) :
    h.emit_tag tag true hide = Except.error Err.missingCUC ∧
    h.emit_tag tag ai true = Except.error Err.missingCUC ∧
    (∃ t, h.emit_tag tag false false = Except.ok t ∧ t.hasCBI = false) ∧
    (∀ g : IdHolder, g.perform_checks ≠ Except.error Err.missingCUC) := by
  refine ⟨?_, ?_, ?_, ?_⟩
  · simp [IdHolder.emit_tag, hnc, error_bind]
  · simp [IdHolder.emit_tag, hnc, error_bind]
  · refine ⟨_, rfl, ?_⟩
    rw [hasCBI_node_of_ne_cbi _ _ _ (by simp)]
    rw [hasCBIList_append, hasCBIList_append, hasCBIList_append]
    have hnm : Tree.hasCBIList
        (match h.name with
         | some n => [Tree.node "Nm" (some n) []]
         | none => []) = false := by
      cases h.name with
      | none => rfl
      | some n =>
        show ((Tree.node "Nm" (some n) []).hasCBI || false) = false
        rw [hasCBI_node_of_ne_issr _ _ _ (by decide)]
        rfl
    have hadr : Tree.hasCBIList
        (match h.pstl with
         | some p => if !false then [p.tag] else []
         | none => []) = false := by
      cases h.pstl with
      | none => rfl
      | some p =>
        show (p.tag.hasCBI || false) = false
        rw [Address.tag, hasCBI_address]
        rfl
    have hcf : Tree.hasCBIList
        (if !false then
          match h.cf with
          | some c => [emit_id_tag c (some "ADE")]
          | none => []
         else []) = false := by
      cases h.cf with
      | none => rfl
      | some c =>
        show ((emit_id_tag c (some "ADE")).hasCBI || false) = false
        rw [hasCBI_id_ade]
        rfl
    have hcode : Tree.hasCBIList
        (match h.code with
         | some c => [emit_id_tag c none]
         | none => []) = false := by
      cases h.code with
      | none => rfl
      | some c =>
        show ((emit_id_tag c none).hasCBI || false) = false
        rw [hasCBI_id_plain]
        rfl
    have hctry : Tree.hasCBIList
        (if !false then
          match h.country with
          | some c => [Tree.node "CtryOfRes" (some c) []]
          | none => []
         else []) = false := by
      cases h.country with
      | none => rfl
      | some c =>
        show ((Tree.node "CtryOfRes" (some c) []).hasCBI || false) = false
        rw [hasCBI_node_of_ne_issr _ _ _ (by decide)]
        rfl
    have hid : Tree.hasCBIList
        [Tree.node "Id" none
          [Tree.node (if h.«private» then "PrvtId" else "OrgId") none
            (([] : List Tree) ++
             (if !false then
               match h.cf with
               | some c => [emit_id_tag c (some "ADE")]
               | none => []
              else []) ++
             (match h.code with
              | some c => [emit_id_tag c none]
              | none => []))]] = false := by
      show ((Tree.node "Id" none _).hasCBI || false) = false
      rw [hasCBI_node_of_ne_cbi _ _ _ (by simp)]
      show (((Tree.node _ none _).hasCBI || false) || false) = false
      rw [hasCBI_node_of_ne_cbi _ _ _ (by simp)]
      rw [hasCBIList_append, hasCBIList_append]
      rw [hcf, hcode]
      rfl
    rw [hnm, hadr, hid, hctry]
    rfl
  · intro g hg
    rw [IdHolder.perform_checks] at hg
    cases hrc : g.run_checks with
    | ok u => rw [hrc] at hg; exact Except.noConfusion hg
    | error e2 =>
      rw [hrc] at hg
      have : e2 = Err.missingCUC := Except.error.inj hg
      subst this
      rcases run_checks_error_shape g _ hrc with h1 | ⟨f, c, h1⟩ <;>
        exact Err.noConfusion h1

/-- Witness for C2: the default holder (no `cuc`) with tag "Cdtr". -/
theorem C2_missing_cuc_witness :
    (({} : IdHolder).emit_tag "Cdtr" true false =
      Except.error Err.missingCUC) ∧
    (({} : IdHolder).emit_tag "Cdtr" false true =
      Except.error Err.missingCUC) ∧
    (∃ t, ({} : IdHolder).emit_tag "Cdtr" false false = Except.ok t ∧
      t.hasCBI = false) ∧
    (∀ g : IdHolder, g.perform_checks ≠ Except.error Err.missingCUC) :=
  C2_missing_cuc {} "Cdtr" false false rfl

/-! ## Success shapes of the validation checks -/

theorem bind_ok_cases {α β : Type} (x : Except Err α)
    (f : α → Except Err β) (b : β) (hx : (x >>= f) = Except.ok b) :
    ∃ a, x = Except.ok a ∧ f a = Except.ok b := by
  cases x with
  | error e => rw [error_bind] at hx; exact Except.noConfusion hx
  | ok a => rw [ok_bind] at hx; exact ⟨a, rfl, hx⟩

theorem max_length_ok (f v : String) (n : Nat) (hv : v.length ≤ n) :
    AttributeCarrier.max_length f v n = Except.ok () := by
  rw [AttributeCarrier.max_length, if_neg (by omega)]

theorem length_ok (f v : String) (n : Nat) (hv : v.length = n) :
    AttributeCarrier.length f v n = Except.ok () := by
  rw [AttributeCarrier.length, if_neg (by omega)]

theorem max_length_ok_inv (f v : String) (n : Nat)
    (hx : AttributeCarrier.max_length f v n = Except.ok ()) :
    v.length ≤ n := by
  by_cases hc : n < v.length
  · rw [AttributeCarrier.max_length, if_pos hc] at hx
    exact Except.noConfusion hx
  · omega

theorem length_ok_inv (f v : String) (n : Nat)
    (hx : AttributeCarrier.length f v n = Except.ok ()) :
    v.length = n := by
  by_cases hc : v.length = n
  · exact hc
  · rw [AttributeCarrier.length, if_pos hc] at hx
    exact Except.noConfusion hx

theorem check_name_ok (h : IdHolder)
    (hc : ∀ v, h.name = some v → v.length ≤ 70) :
    h.check_name = Except.ok () := by
  rw [IdHolder.check_name]
  cases hn : h.name with
  | none => rfl
  | some v =>
    exact max_length_ok _ _ _ (hc v hn)

theorem check_cf_ok (h : IdHolder)
    (hc : ∀ v, h.cf = some v → v.length ≤ 16)
    (hnb : ¬(h.cf.isSome ∧ h.code.isSome)) :
    h.check_cf = Except.ok () := by
  rw [IdHolder.check_cf]
  cases hn : h.cf with
  | none => rfl
  | some v =>
    have hcode : h.code.isSome = false := by
      cases hcodeq : h.code.isSome
      · rfl
      · exact absurd ⟨by rw [hn]; rfl, hcodeq⟩ hnb
    have hgoal : (if h.code.isSome = true then Except.error Err.assertionFailed
        else AttributeCarrier.max_length "cf" v 16) = Except.ok () := by
      rw [hcode, if_neg (by decide)]
      exact max_length_ok _ _ _ (hc v hn)
    exact hgoal

theorem check_cuc_ok (h : IdHolder)
    (hc : ∀ v, h.cuc = some v → v.length ≤ 35) :
    h.check_cuc = Except.ok () := by
  rw [IdHolder.check_cuc]
  cases hn : h.cuc with
  | none => rfl
  | some v =>
    exact max_length_ok _ _ _ (hc v hn)

theorem check_pstl_country_ok (h : IdHolder)
    (hc : ∀ v, h.pstl_country = some v → v.length = 2) :
    h.check_pstl_country = Except.ok () := by
  rw [IdHolder.check_pstl_country]
  cases hn : h.pstl_country with
  | none => rfl
  | some v =>
    exact length_ok _ _ _ (hc v hn)

theorem check_pstl_town_ok (h : IdHolder)
    (hc : ∀ v, h.pstl_town = some v → v.length ≤ 35) :
    h.check_pstl_town = Except.ok () := by
  rw [IdHolder.check_pstl_town]
  cases hn : h.pstl_town with
  | none => rfl
  | some v =>
    exact max_length_ok _ _ _ (hc v hn)

theorem check_country_ok (h : IdHolder)
    (hc : ∀ v, h.country = some v → v.length = 2) :
    h.check_country = Except.ok () := by
  rw [IdHolder.check_country]
  cases hn : h.country with
  | none => rfl
  | some v =>
    exact length_ok _ _ _ (hc v hn)

theorem check_name_ok_inv (h : IdHolder)
    (hx : h.check_name = Except.ok ()) :
    ∀ v, h.name = some v → v.length ≤ 70 := by
  intro v hv
  rw [IdHolder.check_name, hv] at hx
  exact max_length_ok_inv _ _ _ hx

theorem check_cf_ok_inv (h : IdHolder)
    (hx : h.check_cf = Except.ok ()) :
    ∀ v, h.cf = some v → v.length ≤ 16 := by
  intro v hv
  rw [IdHolder.check_cf, hv] at hx
  have h2 : (if h.code.isSome = true then Except.error Err.assertionFailed
      else AttributeCarrier.max_length "cf" v 16) = Except.ok () := hx
  by_cases hc : h.code.isSome
  · rw [if_pos hc] at h2
    exact Except.noConfusion h2
  · rw [if_neg hc] at h2
    exact max_length_ok_inv _ _ _ h2

theorem check_cuc_ok_inv (h : IdHolder)
    (hx : h.check_cuc = Except.ok ()) :
    ∀ v, h.cuc = some v → v.length ≤ 35 := by
  intro v hv
  rw [IdHolder.check_cuc, hv] at hx
  exact max_length_ok_inv _ _ _ hx

theorem check_pstl_country_ok_inv (h : IdHolder)
    (hx : h.check_pstl_country = Except.ok ()) :
    ∀ v, h.pstl_country = some v → v.length = 2 := by
  intro v hv
  rw [IdHolder.check_pstl_country, hv] at hx
  exact length_ok_inv _ _ _ hx

theorem check_pstl_town_ok_inv (h : IdHolder)
    (hx : h.check_pstl_town = Except.ok ()) :
    ∀ v, h.pstl_town = some v → v.length ≤ 35 := by
  intro v hv
  rw [IdHolder.check_pstl_town, hv] at hx
  exact max_length_ok_inv _ _ _ hx

theorem check_country_ok_inv (h : IdHolder)
    (hx : h.check_country = Except.ok ()) :
    ∀ v, h.country = some v → v.length = 2 := by
  intro v hv
  rw [IdHolder.check_country, hv] at hx
  exact length_ok_inv _ _ _ hx

/-- A successful run of the six checks certifies all length constraints. -/
theorem run_checks_ok_lengths (h : IdHolder)
    (hok : h.run_checks = Except.ok ()) : h.lengthsOk := by
  rw [IdHolder.run_checks] at hok
  obtain ⟨a1, hc1, hok⟩ := bind_ok_cases _ _ _ hok
  obtain ⟨a2, hc2, hok⟩ := bind_ok_cases _ _ _ hok
  obtain ⟨a3, hc3, hok⟩ := bind_ok_cases _ _ _ hok
  obtain ⟨a4, hc4, hok⟩ := bind_ok_cases _ _ _ hok
  obtain ⟨a5, hc5, hok⟩ := bind_ok_cases _ _ _ hok
  cases a1; cases a2; cases a3; cases a4; cases a5
  exact ⟨check_name_ok_inv h hc1, check_cf_ok_inv h hc2,
    check_cuc_ok_inv h hc3, check_pstl_country_ok_inv h hc4,
    check_pstl_town_ok_inv h hc5, check_country_ok_inv h hok⟩

/-- **C8.** `IdHolder` validation enforces the length constraints (name
at most 70, cf at most 16, cuc at most 35, pstl_town at most 35,
pstl_country exactly 2, country exactly 2) exactly on the fields that are
present: any violation makes `perform_checks` fail, and when every
present field satisfies its constraint (absence is never an error) and
`cf`/`code` are not simultaneously set, `perform_checks` succeeds. -/
theorem C8_length_checks (h : IdHolder) :
    (h.lengthViolation → ∃ e, h.perform_checks = Except.error e) ∧
    (h.lengthsOk → ¬(h.cf.isSome ∧ h.code.isSome) →
      ∃ u, h.perform_checks = Except.ok u) := by
  constructor
  · intro hviol
    cases hpc : h.perform_checks with
    | error e => exact ⟨e, rfl⟩
    | ok u =>
      exfalso
      rw [IdHolder.perform_checks] at hpc
      cases hrc : h.run_checks with
      | error e => rw [hrc] at hpc; exact Except.noConfusion hpc
      | ok w =>
        cases w
        have hl := run_checks_ok_lengths h hrc
        obtain ⟨l1, l2, l3, l4, l5, l6⟩ := hl
        rcases hviol with h1|h1|h1|h1|h1|h1 <;> obtain ⟨v, hv, hlen⟩ := h1
        · exact absurd (l1 v hv) (by omega)
        · exact absurd (l2 v hv) (by omega)
        · exact absurd (l3 v hv) (by omega)
        · exact absurd (l4 v hv) (by omega)
        · exact absurd (l5 v hv) (by omega)
        · exact absurd (l6 v hv) (by omega)
  · intro hlok hnb
    obtain ⟨l1, l2, l3, l4, l5, l6⟩ := hlok
    have hrc : h.run_checks = Except.ok () := by
      simp only [IdHolder.run_checks, check_name_ok h l1,
        check_cf_ok h l2 hnb, check_cuc_ok h l3,
        check_pstl_country_ok h l4, check_pstl_town_ok h l5,
        check_country_ok h l6, ok_bind]
    exact ⟨h.update_pstl, by rw [IdHolder.perform_checks, hrc]⟩

/-- Witness for C8: a holder with a 71-character name fails validation;
the default holder (nothing present) validates. -/
theorem C8_length_checks_witness :
    (∃ e, ({ name := some longLine } : IdHolder).perform_checks =
      Except.error e) ∧
    (∃ u, ({} : IdHolder).perform_checks = Except.ok u) :=
  ⟨(C8_length_checks { name := some longLine }).1
      (Or.inl ⟨longLine, rfl, by decide⟩),
   (C8_length_checks {}).2
      (by refine ⟨?_, ?_, ?_, ?_, ?_, ?_⟩ <;> intro v hv <;>
        exact Option.noConfusion hv)
      (by rintro ⟨h1, h2⟩; exact Bool.noConfusion h1)⟩

/-! ## Purity of emission and inertness of `sia_code` -/

/-- **C9.** Emission never mutates the instance: running the
state-passing form of `emit_tag` (which reads `self` exactly where the
source method does) leaves the state unchanged — also on the
`MissingCUCError` paths — its result coincides with the pure `emit_tag`,
and a second call on the resulting instance with identical arguments
returns a structurally identical result. -/
theorem C9_emit_no_mutation (h : IdHolder) (tag : String)
    (as_initiator hide : Bool) :
    ((IdHolder.emit_tagS tag as_initiator hide).run h).2 = h ∧
    ((IdHolder.emit_tagS tag as_initiator hide).run h).1 =
      h.emit_tag tag as_initiator hide ∧
    ((IdHolder.emit_tagS tag as_initiator hide).run
        (((IdHolder.emit_tagS tag as_initiator hide).run h).2)).1 =
      ((IdHolder.emit_tagS tag as_initiator hide).run h).1 := by
  obtain ⟨name, cf, code, priv, cuc, addr, country, ptown, pctry, sia, pstl⟩ := h
  cases as_initiator <;> cases hide <;> cases cuc <;> exact ⟨rfl, rfl, rfl⟩

/-- **C10.** The `sia_code` field is inert: for two holders equal except
for `sia_code`, validation has the same outcome (equal errors, or equal
results up to their `sia_code`) and emission with identical arguments
produces identical trees. -/
theorem C10_sia_inert (h1 h2 : IdHolder) (tag : String)
    (as_initiator hide : Bool) (hs : h1.stripSia = h2.stripSia) :
    Except.map IdHolder.stripSia h1.perform_checks =
      Except.map IdHolder.stripSia h2.perform_checks ∧
    h1.emit_tag tag as_initiator hide = h2.emit_tag tag as_initiator hide := by
  obtain ⟨n1, cf1, co1, p1, cu1, a1, c1, pt1, pc1, s1, ps1⟩ := h1
  obtain ⟨n2, cf2, co2, p2, cu2, a2, c2, pt2, pc2, s2, ps2⟩ := h2
  simp only [IdHolder.stripSia, IdHolder.mk.injEq] at hs
  obtain ⟨e1, e2, e3, e4, e5, e6, e7, e8, e9, _, e11⟩ := hs
  subst e1; subst e2; subst e3; subst e4; subst e5; subst e6; subst e7
  subst e8; subst e9; subst e11
  constructor
  · rw [IdHolder.perform_checks, IdHolder.perform_checks]
    cases hx : IdHolder.run_checks ⟨n1, cf1, co1, p1, cu1, a1, c1, pt1, pc1, s1, ps1⟩ with
    | error e =>
      rw [show IdHolder.run_checks
          ⟨n1, cf1, co1, p1, cu1, a1, c1, pt1, pc1, s2, ps1⟩ =
          Except.error e from hx]
    | ok u =>
      cases u
      rw [show IdHolder.run_checks
          ⟨n1, cf1, co1, p1, cu1, a1, c1, pt1, pc1, s2, ps1⟩ =
          Except.ok () from hx]
      cases pc1 <;> rfl
  · rfl

/-- Witness for C10: a holder carrying a `sia_code` behaves like the
default holder without one. -/
theorem C10_sia_inert_witness :
    Except.map IdHolder.stripSia
      ({ sia_code := some "X" } : IdHolder).perform_checks =
      Except.map IdHolder.stripSia ({} : IdHolder).perform_checks ∧
    ({ sia_code := some "X" } : IdHolder).emit_tag "Cdtr" false false =
      ({} : IdHolder).emit_tag "Cdtr" false false :=
  C10_sia_inert { sia_code := some "X" } {} "Cdtr" false false rfl

/-! ## The postal-field condition slip and the unvalidated `pstl` -/

/-- **C3.** Evaluation at the failing inputs of the duplicated condition
`hasattr(self, 'pstl_country') or hasattr(self, 'pstl_country')`: a
holder supplying only `pstl_town` (or only `address`) validates
successfully yet keeps `pstl` unset, although the spec requires `pstl` to
be populated whenever any of the three postal inputs is present. -/
theorem C3_pstl_only_town_left_unset :
    ({ pstl_town := some "Milano" } : IdHolder).perform_checks =
      Except.ok { pstl_town := some "Milano" } ∧
    ({ pstl_town := some "Milano" } : IdHolder).pstl = none ∧
    ({ address := some (PyVal.list ["Via Roma 1"]) } : IdHolder).perform_checks =
      Except.ok { address := some (PyVal.list ["Via Roma 1"]) } := by
  refine ⟨rfl, rfl, rfl⟩

/-- **C4 counterexample.** A holder whose postal fields violate the
address-line constraints (a 71-character line) passes `IdHolder`
validation — the freshly built `pstl` is never validated — although
`Address.perform_checks` itself rejects exactly that address. -/
theorem C4_counterexample :
    ({ address := some (PyVal.list [longLine]),
       pstl_country := some "IT" } : IdHolder).perform_checks =
      Except.ok { address := some (PyVal.list [longLine]),
                  pstl_country := some "IT",
                  pstl := some ⟨some (PyVal.list [longLine]), some "IT", none⟩ } ∧
    Address.perform_checks ⟨some (PyVal.list [longLine]), some "IT", none⟩ =
      Except.error (Err.addressFormat
        "Line must have length between 1 and 70 characters") := by
  refine ⟨rfl, rfl⟩

/-- **C4 (amended).** `IdHolder` validation never fails with
`AddressFormatError`: `perform_checks` constructs the derived `Address`
without validating it, so every validation failure is a length-constraint
violation or the bare mutual-exclusion assertion; `AddressFormatError`
arises only from `Address.perform_checks` itself. -/
theorem C4_no_address_error_from_validation (h : IdHolder) (e : Err)
    (he : h.perform_checks = Except.error e) (msg : String) :
    e ≠ Err.addressFormat msg := by
  intro hbad
  subst hbad
  rw [IdHolder.perform_checks] at he
  cases hrc : h.run_checks with
  | ok u => rw [hrc] at he; exact Except.noConfusion he
  | error e2 =>
    rw [hrc] at he
    have he2 : e2 = Err.addressFormat msg := Except.error.inj he
    subst he2
    rcases run_checks_error_shape h _ hrc with h1 | ⟨f, c, h1⟩ <;>
      exact Err.noConfusion h1

/-- Witness for C4 (amended): a holder with a 3-letter country fails
validation with a constraint violation, which is no `AddressFormatError`. -/
theorem C4_no_address_error_witness :
    Err.constraintViolated "country" (Constraint.exactLength 2) ≠
      Err.addressFormat "Address format error" :=
  C4_no_address_error_from_validation { country := some "ITA" } _
    rfl "Address format error"

/-! ## The cf/code mutual exclusion -/

/-- **C5 counterexample.** With both `cf` and `code` set, validation
fails — but through the bare `assert not hasattr(self, 'code')`, i.e. an
`AssertionError` carrying no field or constraint information, not the
generic "constraint violated" failure the spec prescribes. -/
theorem C5_counterexample :
    ({ cf := some "A", code := some "B" } : IdHolder).perform_checks =
      Except.error Err.assertionFailed ∧
    ¬ ∃ f c, ({ cf := some "A", code := some "B" } : IdHolder).perform_checks =
      Except.error (Err.constraintViolated f c) := by
  have h1 : ({ cf := some "A", code := some "B" } : IdHolder).perform_checks =
      Except.error Err.assertionFailed := rfl
  refine ⟨h1, ?_⟩
  rintro ⟨f, c, h2⟩
  rw [h1] at h2
  exact Err.noConfusion (Except.error.inj h2)

/-- **C5 (amended).** For every `IdHolder` with both `cf` and `code` set,
validation fails; when the preceding `name` length check passes, the
failure is the bare assertion failure (an `AssertionError` with no field
or constraint payload) rather than a generic constraint violation. -/
theorem C5_cf_code_mutual_exclusion (h : IdHolder)
    (hcf : h.cf.isSome) (hcode : h.code.isSome) :
    (∃ e, h.perform_checks = Except.error e) ∧
    ((∀ v, h.name = some v → v.length ≤ 70) →
      h.perform_checks = Except.error Err.assertionFailed) := by
  have hcf2 : h.check_cf = Except.error Err.assertionFailed := by
    rw [IdHolder.check_cf]
    cases hn : h.cf with
    | none => rw [hn] at hcf; exact Bool.noConfusion hcf
    | some v =>
      have hthis : (if h.code.isSome = true then
          Except.error Err.assertionFailed
          else AttributeCarrier.max_length "cf" v 16) =
          Except.error Err.assertionFailed := by
        rw [if_pos hcode]
      exact hthis
  have hmain : ∀ u : Unit, h.check_name = Except.ok u →
      h.perform_checks = Except.error Err.assertionFailed := by
    intro u hcn
    cases u
    have hrc : h.run_checks = Except.error Err.assertionFailed := by
      simp only [IdHolder.run_checks, hcn, ok_bind, hcf2, error_bind]
    rw [IdHolder.perform_checks, hrc]
  constructor
  · cases hcn : h.check_name with
    | error e =>
      refine ⟨e, ?_⟩
      have hrc : h.run_checks = Except.error e := by
        simp only [IdHolder.run_checks, hcn, error_bind]
      rw [IdHolder.perform_checks, hrc]
    | ok u => exact ⟨Err.assertionFailed, hmain u hcn⟩
  · intro hname
    exact hmain () (check_name_ok h hname)

/-- Witness for C5 (amended): the concrete holder with `cf` and `code`. -/
theorem C5_cf_code_mutual_exclusion_witness :
    (∃ e, ({ cf := some "A", code := some "B" } : IdHolder).perform_checks =
      Except.error e) ∧
    ((∀ v, ({ cf := some "A", code := some "B" } : IdHolder).name = some v →
        v.length ≤ 70) →
      ({ cf := some "A", code := some "B" } : IdHolder).perform_checks =
        Except.error Err.assertionFailed) :=
  C5_cf_code_mutual_exclusion { cf := some "A", code := some "B" } rfl rfl

end Sepacbi
